import Mathlib

set_option maxHeartbeats 1000000

/-!
Formal model of autofile.js (src/index.ts), a reactive file-persistence library:
a file is read and parsed into an object; the object is observed so that mutations
trigger a (blocking or queued non-blocking) re-serialization and whole-file write.

Shallow embedding notes:
* Plain JavaScript objects are modelled by the inductive `Val`.
* The static codec table `ReactiveFile.types` is modelled as a function
  `Registry` from format strings to optional (parse, serialize) pairs, threaded
  explicitly through the operations (JS mutates the static field in place).
* Thrown JS exceptions are modelled with `Except Err` / `Option Err`; the single
  throw site of each kind is mapped to one `Err` constructor.
* The filesystem is a map from path to file text; the Node event loop's pending
  non-blocking saves are a queue of `PendingWrite`s held in `Sys`.
* `observeData` is imported by index.ts from ./react, a file absent from the
  snapshot; its behaviour is modelled from the spec (see `mutateKey`).
-/

/-- JSON-like document values: the plain object trees that ReactiveFile binds to
files (the `Obj` type of the source, specialised to a concrete value tree). -/
inductive Val where
  | vNull : Val
  | vBool : Bool → Val
  | vInt : Int → Val
  | vStr : String → Val
  | vArr : List Val → Val
  | vObj : List (String × Val) → Val

/-- Set (or insert) a field of a JS object literal, keeping field order, as a JS
property assignment does. -/
def setField : List (String × Val) → String → Val → List (String × Val)
  | [], k, v => [(k, v)]
  | (k1, v1) :: rest, k, v =>
    if k1 = k then (k, v) :: rest else (k1, v1) :: setField rest k v

/-- A top-level property assignment `doc.val[k] = v` on the bound object. On a
non-object value a JS property write is a no-op for our purposes. -/
def setKeyVal : Val → String → Val → Val
  | Val.vObj fs, k, v => Val.vObj (setField fs k v)
  | other, _, _ => other

/-- Failure kinds of the library, one constructor per throw site of index.ts:
* `unknownFormat`: `this.types[type][0]` / `[1]` throws when the registry has no
  entry for `type` (the spec's UnknownFormat condition);
* `configError`: the explicit `throw new Error('saveTo path must be defined!')`
  in `ReactiveFile.from`;
* `storageError`: a filesystem read failure in `load`/`loadSync`. -/
inductive Err where
  | unknownFormat : Err
  | configError : Err
  | storageError : Err
deriving DecidableEq

/-- A custom function for parsing the input string into an object. -/
abbrev ParseFunction := String → Val

/-- A custom function for serializing the input object into a string. -/
abbrev SerializeFunction := Val → String

/-- The codec registry: the `private static types: Obj<[ParseFunction,
SerializeFunction]>` table of the source, as a lookup function. -/
abbrev Registry := String → Option (ParseFunction × SerializeFunction)

/-- The initial empty registry (`private static types = {}`). -/
def emptyTypes : Registry := fun _ => none

/-- The bound document: an instance of `class ReactiveFile`. `path` is the
resolved destination (`opts.saveTo || path`), `type` the resolved format. -/
structure ReactiveFile where
  val : Val
  path : String
  encoding : String
  asyncSave : Bool
  deep : Bool
  reactive : Bool
  type : String

/-- Construction options of the source (`LoadOptions`), with the source's
defaults. -/
structure LoadOptions where
  encoding : String := "utf8"
  asyncSave : Bool := true
  saveTo : Option String := none
  deep : Bool := true
  reactive : Bool := true
  type : Option String := none

/-- Source `registerType`: `this.types[type] = [parse, serialize]` — insert or
overwrite, no error on overwrite. -/
def ReactiveFile.registerType (types : Registry) (type : String)
    (p : ParseFunction) (s : SerializeFunction) : Registry :=
  fun k => if k = type then some (p, s) else types k

/-- Source `assignType`: `this.types[type] = this.types[from]`. A plain JS
property assignment: it is total and copies whatever is there, including the
absent value when `fromType` is unregistered (no check, nothing thrown). -/
def ReactiveFile.assignType (types : Registry) (type fromType : String) : Registry :=
  fun k => if k = type then types fromType else types k

/-- Source `parse`: `this.types[type][0](str)`. Indexing `[0]` on the missing
entry of an unregistered format throws; that throw is the `unknownFormat`
failure. -/
def ReactiveFile.parse (types : Registry) (str : String) (type : String) :
    Except Err Val :=
  match types type with
  | none => Except.error Err.unknownFormat
  | some ps => Except.ok (ps.1 str)

/-- Source `serialize`: `this.types[type][1](obj)`, failing like `parse` when
the format is unregistered. -/
def ReactiveFile.serialize (types : Registry) (obj : Val) (type : String) :
    Except Err String :=
  match types type with
  | none => Except.error Err.unknownFormat
  | some ps => Except.ok (ps.2 obj)

/-- Boolean predicate: the character is not a dot. -/
def notDot (c : Char) : Bool := c ≠ '.'

/-- Boolean predicate: the character is not a path separator. -/
def notSlash (c : Char) : Bool := c ≠ '/'

/-- Boolean predicate: the character is a path separator. -/
def isSlash (c : Char) : Bool := c = '/'

/-- Drop trailing path separators, as Node's `path.parse` does before locating
the base name. -/
def trimTrailingSlashes (cs : List Char) : List Char :=
  (cs.reverse.dropWhile isSlash).reverse

/-- The characters after the last separator (the base name of the already
trimmed path). -/
def basenameChars (cs : List Char) : List Char :=
  (cs.reverse.takeWhile notSlash).reverse

/-- Base name (as characters) of a path, per Node `path.parse` (posix):
trailing separators stripped, then everything after the last separator. -/
def bchars (p : String) : List Char :=
  basenameChars (trimTrailingSlashes p.data)

/-- Extension of a base name, per Node `path.parse` (posix): the segment from
the last dot to the end, except that it is empty when there is no dot, when the
only dot is the leading character (dotfiles such as .bashrc), or when the base
name is exactly the special segment `..`. Mirrors the `startDot`/`preDotState`
conditions of Node's parser. -/
def nodeExtChars (b : List Char) : List Char :=
  let revAfter := b.reverse.takeWhile notDot
  if revAfter.length = b.length then []
  else if revAfter.length + 1 = b.length then []
  else if b = ['.', '.'] then []
  else '.' :: revAfter.reverse

/-- Model of `parsePath(path).ext` from the source's `import {parse as
parsePath} from 'path'` (posix semantics). -/
def parsePathExt (p : String) : String :=
  String.mk (nodeExtChars (bchars p))

/-- Model of the source's format inference `parsePath(path).ext.slice(1)`:
the extension with the leading dot removed (empty when there is no extension).
Note there is no case conversion anywhere on this path. -/
def inferType (p : String) : String :=
  String.mk ((nodeExtChars (bchars p)).drop 1)

/-- JS `a || b` on an optional string: `null`/`undefined` and the empty string
are falsy and fall through to the default. -/
def jsOrElse (o : Option String) (dflt : String) : String :=
  match o with
  | none => dflt
  | some s => if s = "" then dflt else s

/-- The source's `type = type || parsePath(path).ext.slice(1)` step of
`load` / `loadSync` (and of `from`, applied there to the `saveTo` path). -/
def resolveType (explicit : Option String) (path : String) : String :=
  jsOrElse explicit (inferType path)

/-- The filesystem: full text content per path (whole-file reads and writes
only, matching `readFile` / `writeFileSync`). -/
abbrev FS := String → Option String

/-- A whole-file overwrite (`fs.writeFileSync(path, text)`). -/
def writeFS (f : FS) (p : String) (c : String) : FS :=
  fun q => if q = p then some c else f q

/-- A non-blocking save whose payload was already serialized at notification
time (the body of `save()` runs synchronously up to its first await) and whose
write has not yet run. -/
structure PendingWrite where
  path : String
  content : String
deriving DecidableEq

/-- Whole system state: the store plus the queue of scheduled, not yet executed
non-blocking writes. -/
structure Sys where
  fsys : FS
  queue : List PendingWrite

/-- Source `save()` (non-blocking): the serialization runs synchronously when
the call is made, then the write is scheduled; the call does not wait for it.
A serialization failure makes the returned promise reject, out of band: the
error is reported in the second component, nothing is written or scheduled. -/
def ReactiveFile.save (types : Registry) (d : ReactiveFile) (sys : Sys) :
    Sys × Option Err :=
  match ReactiveFile.serialize types d.val d.type with
  | Except.error e => (sys, some e)
  | Except.ok str => ({ sys with queue := sys.queue ++ [⟨d.path, str⟩] }, none)

/-- Source `saveSync()` (blocking): serialize, then write in place before
returning; a serialization failure propagates before anything is written. -/
def ReactiveFile.saveSync (types : Registry) (d : ReactiveFile) (fsys : FS) :
    FS × Option Err :=
  match ReactiveFile.serialize types d.val d.type with
  | Except.error e => (fsys, some e)
  | Except.ok str => (writeFS fsys d.path str, none)

/-- The `notify` closure of `react()`: non-blocking mode calls `save()` without
awaiting it (its rejection is not observable by the notifying call, hence
`none`), blocking mode calls `saveSync()` and propagates its failure. -/
def notifyRun (types : Registry) (d : ReactiveFile) (sys : Sys) : Sys × Option Err :=
  if d.asyncSave then ((ReactiveFile.save types d sys).1, none)
  else
    let r := ReactiveFile.saveSync types d sys.fsys
    ({ sys with fsys := r.1 }, r.2)

/-- Source `react()`: returns at once when `reactive` is false; otherwise it
attaches `observeData` (modelled from the spec as firing nothing by itself at
attach time, §4.2) and then unconditionally calls `notify()` once. -/
def ReactiveFile.react (types : Registry) (d : ReactiveFile) (sys : Sys) :
    Sys × Option Err :=
  if d.reactive = false then (sys, none)
  else notifyRun types d sys

/-- Result of one observed mutation: the updated document, the system state,
and the error (if any) propagated synchronously to the mutating call. -/
structure MutResult where
  doc : ReactiveFile
  sys : Sys
  err : Option Err

/-- Modelled from the spec: `observeData` lives in ./react, a source file of
this repository that is absent from the snapshot. Per spec §4.2, the observed
root behaves like the raw object for reads, and a property assignment first
takes effect on the underlying container and then invokes `onChange`
synchronously — so the callback (the `notify` of `react()`, which is in
index.ts) sees the post-mutation value. When the document was built with
`reactive = false`, `react()` returned before attaching `observeData`, so a
mutation is an unobserved plain assignment. -/
def mutateKey (types : Registry) (d : ReactiveFile) (k : String) (v : Val)
    (sys : Sys) : MutResult :=
  let d2 := { d with val := setKeyVal d.val k v }
  if d2.reactive then
    let r := notifyRun types d2 sys
    ⟨d2, r.1, r.2⟩
  else ⟨d2, sys, none⟩

/-- A sequence of observed mutations, applied left to right. -/
def applyMuts (types : Registry) :
    ReactiveFile × Sys → List (String × Val) → ReactiveFile × Sys
  | ds, [] => ds
  | ds, (k, v) :: rest =>
    let r := mutateKey types ds.1 k v ds.2
    applyMuts types (r.doc, r.sys) rest

/-- Execute one pending write: `fs.writeFileSync` replaces the whole file with
the payload in one synchronous, uninterruptible call on the single JS thread. -/
def applyWrite (f : FS) (w : PendingWrite) : FS :=
  writeFS f w.path w.content

/-- Drain the pending-write queue in issue order (the settled state once the
event loop has run every scheduled save). -/
def settle (sys : Sys) : Sys :=
  ⟨sys.queue.foldl applyWrite sys.fsys, []⟩

/-- One scheduler step: some pending write — not necessarily the oldest, since
the `await mkdir` of each `save()` may resolve in any order — runs to
completion. The whole write is a single step because `writeFileSync` blocks
the only JS thread until the full content is on disk: no two writes overlap. -/
inductive SaveStep : Sys → Sys → Prop
  | write (f : FS) (pre post : List PendingWrite) (w : PendingWrite) :
      SaveStep ⟨f, pre ++ w :: post⟩ ⟨applyWrite f w, pre ++ post⟩

/-- All system states reachable by running pending writes in some order. -/
abbrev ReachableSys : Sys → Sys → Prop :=
  Relation.ReflTransGen SaveStep

/-- Source `load` (the `await readFile` suspension is not modelled; the read is
the lookup in `sys.fsys`): infer the format, read, parse, construct — the
constructor stores the options, sets `path = opts.saveTo || path`, and calls
`react()`. Any failure aborts construction: no document is returned. -/
def ReactiveFile.load (types : Registry) (path : String) (opts : LoadOptions)
    (sys : Sys) : Sys × Except Err ReactiveFile :=
  let t := resolveType opts.type path
  match sys.fsys path with
  | none => (sys, Except.error Err.storageError)
  | some data =>
    match ReactiveFile.parse types data t with
    | Except.error e => (sys, Except.error e)
    | Except.ok v =>
      let d : ReactiveFile :=
        { val := v, path := jsOrElse opts.saveTo path, encoding := opts.encoding,
          asyncSave := opts.asyncSave, deep := opts.deep,
          reactive := opts.reactive, type := t }
      let r := ReactiveFile.react types d sys
      match r.2 with
      | some e => (r.1, Except.error e)
      | none => (r.1, Except.ok d)

/-- Source `loadSync`: same pipeline as `load` with a synchronous read. -/
def ReactiveFile.loadSync (types : Registry) (path : String) (opts : LoadOptions)
    (sys : Sys) : Sys × Except Err ReactiveFile :=
  let t := resolveType opts.type path
  match sys.fsys path with
  | none => (sys, Except.error Err.storageError)
  | some data =>
    match ReactiveFile.parse types data t with
    | Except.error e => (sys, Except.error e)
    | Except.ok v =>
      let d : ReactiveFile :=
        { val := v, path := jsOrElse opts.saveTo path, encoding := opts.encoding,
          asyncSave := opts.asyncSave, deep := opts.deep,
          reactive := opts.reactive, type := t }
      let r := ReactiveFile.react types d sys
      match r.2 with
      | some e => (r.1, Except.error e)
      | none => (r.1, Except.ok d)

/-- Source `from` (a Lean keyword, hence the name `fromObj`): adopt an existing
object. Throws `configError` when `saveTo` is absent (or empty — JS falsiness),
before any document is constructed; otherwise infer the format from `saveTo`
and construct as `load` does. -/
def ReactiveFile.fromObj (types : Registry) (obj : Val) (opts : LoadOptions)
    (sys : Sys) : Sys × Except Err ReactiveFile :=
  match opts.saveTo with
  | none => (sys, Except.error Err.configError)
  | some st =>
    if st = "" then (sys, Except.error Err.configError)
    else
      let t := resolveType opts.type st
      let d : ReactiveFile :=
        { val := obj, path := st, encoding := opts.encoding,
          asyncSave := opts.asyncSave, deep := opts.deep,
          reactive := opts.reactive, type := t }
      let r := ReactiveFile.react types d sys
      match r.2 with
      | some e => (r.1, Except.error e)
      | none => (r.1, Except.ok d)

/-- The alias operation exactly as the spec words it (for comparison with the
source's `assignType`): copies an existing entry under a new key; fails with
UnknownFormat if the source format is unregistered. -/
def specAlias (types : Registry) (type fromType : String) : Except Err Registry :=
  match types fromType with
  | none => Except.error Err.unknownFormat
  | some e => Except.ok (fun k => if k = type then some e else types k)

/-- The format inference exactly as the spec words it (for comparison with
`resolveType`/`inferType`): the text after the last dot in the filename,
lower-cased, with no leading dot. -/
def specFormatOfPath (p : String) : String :=
  let cs := p.data
  let after := (cs.reverse.takeWhile notDot).reverse
  if after.length = cs.length then "" else String.mk (after.map Char.toLower)

/-- Concrete codec fixtures for witnesses: a parse function returning a fixed
object and a serialize function returning a fixed text. -/
def pJson : ParseFunction := fun _ => Val.vObj [("a", Val.vInt 1)]

/-- Serialize fixture, see `pJson`. -/
def sJson : SerializeFunction := fun _ => "ser"

/-- A registry with exactly one entry, for the format string json. -/
def jReg : Registry := ReactiveFile.registerType emptyTypes "json" pJson sJson

/-- A concrete bound document fixture. -/
def doc0 : ReactiveFile :=
  { val := Val.vObj [], path := "f.json", encoding := "utf8",
    asyncSave := true, deep := true, reactive := true, type := "json" }

/-- An empty system-state fixture. -/
def sys0 : Sys := { fsys := fun _ => none, queue := [] }

/-- A system-state fixture holding one file. -/
def sysF : Sys :=
  { fsys := fun p => if p = "f.json" then some "data" else none, queue := [] }

/-- A system-state fixture holding a file with an unregistered extension. -/
def sysU : Sys :=
  { fsys := fun p => if p = "f.unknownext" then some "data" else none, queue := [] }

/-! Theorems. Claim theorems are named c1 .. c10 after the claim ids; shared
helper lemmas come first. -/

/-- Helper: taking while not-dot stops exactly at the first dot. -/
theorem takeWhile_notDot_append (xs ys : List Char) (h : ∀ x ∈ xs, x ≠ '.') :
    (xs ++ '.' :: ys).takeWhile notDot = xs := by
  induction xs with
  | nil => simp [List.takeWhile_cons, notDot]
  | cons a l ih =>
    have ha : notDot a = true := by
      simp [notDot]
      exact h a (List.mem_cons_self a l)
    simp only [List.cons_append, List.takeWhile_cons, ha, if_true]
    rw [ih (fun x hx => h x (List.mem_cons_of_mem a hx))]

/-- Helper: the last write of a drained queue determines the file content at
its path. -/
theorem foldl_applyWrite_append (f : FS) (q : List PendingWrite) (w : PendingWrite) :
    ((q ++ [w]).foldl applyWrite f) w.path = some w.content := by
  rw [List.foldl_append]
  simp [applyWrite, writeFS]

/-- Helper: draining writes that all target other paths leaves a path alone. -/
theorem foldl_applyWrite_notMem (q : List PendingWrite) (f : FS) (pth : String)
    (h : ∀ w ∈ q, w.path ≠ pth) :
    (q.foldl applyWrite f) pth = f pth := by
  induction q generalizing f with
  | nil => rfl
  | cons w q ih =>
    simp only [List.foldl_cons]
    rw [ih _ (fun u hu => h u (List.mem_cons_of_mem w hu))]
    have hw : w.path ≠ pth := h w (List.mem_cons_self w q)
    simp only [applyWrite, writeFS]
    rw [if_neg (fun he => hw (Eq.symm he))]

/-- C9: registering a format makes decoding delegate to the given parse
function and encoding to the given serialize function, whatever was registered
for that format before — last write wins, no error on overwrite. -/
theorem c9_register_overwrites_and_delegates
    (types : Registry) (f : String) (p : ParseFunction) (s : SerializeFunction) :
    (∀ t, ReactiveFile.parse (ReactiveFile.registerType types f p s) t f
        = Except.ok (p t)) ∧
    (∀ o, ReactiveFile.serialize (ReactiveFile.registerType types f p s) o f
        = Except.ok (s o)) := by
  constructor
  · intro t
    simp [ReactiveFile.parse, ReactiveFile.registerType]
  · intro o
    simp [ReactiveFile.serialize, ReactiveFile.registerType]

/-- C10: after aliasing a to b with b registered, decoding and encoding under a
agree with decoding and encoding under b in the post-alias registry. -/
theorem c10_alias_agrees
    (types : Registry) (a b : String) (e : ParseFunction × SerializeFunction)
    (hreg : types b = some e) :
    (∀ t, ReactiveFile.parse (ReactiveFile.assignType types a b) t a
        = ReactiveFile.parse (ReactiveFile.assignType types a b) t b) ∧
    (∀ o, ReactiveFile.serialize (ReactiveFile.assignType types a b) o a
        = ReactiveFile.serialize (ReactiveFile.assignType types a b) o b) := by
  have hab : ∀ k, ReactiveFile.assignType types a b k
      = if k = a then types b else types k := fun _ => rfl
  constructor
  · intro t
    by_cases hba : b = a
    · subst hba
      rfl
    · simp [ReactiveFile.parse, hab, hba]
  · intro o
    by_cases hba : b = a
    · subst hba
      rfl
    · simp [ReactiveFile.serialize, hab, hba]

/-- C10 witness: instantiated at the concrete one-entry registry `jReg`,
aliasing the new format conf to the registered format json. -/
theorem c10_witness :
    jReg "json" = some (pJson, sJson) ∧
    ((∀ t, ReactiveFile.parse (ReactiveFile.assignType jReg "conf" "json") t "conf"
        = ReactiveFile.parse (ReactiveFile.assignType jReg "conf" "json") t "json") ∧
     (∀ o, ReactiveFile.serialize (ReactiveFile.assignType jReg "conf" "json") o "conf"
        = ReactiveFile.serialize (ReactiveFile.assignType jReg "conf" "json") o "json")) :=
  ⟨rfl, c10_alias_agrees jReg "conf" "json" (pJson, sJson) rfl⟩

/-- C4 counterexample: the source's `assignType` is a plain property copy with
no registration check and no throw — it is a total operation. Aliasing conf to
the unregistered format toml does not fail with UnknownFormat as the claim
states: it completes, silently leaving conf without a codec (the spec-worded
`specAlias`, which the claim describes, fails on the same input). -/
theorem c4_counterexample :
    jReg "toml" = none ∧
    ReactiveFile.assignType jReg "conf" "toml" "conf" = none ∧
    specAlias jReg "conf" "toml" = Except.error Err.unknownFormat :=
  ⟨rfl, rfl, rfl⟩

/-- C4 amended: aliasing a to b when b has no registered codec does not raise
an error; it copies the absent entry, so a stays unregistered and decoding or
encoding under a afterwards fails with the unknown-format failure. -/
theorem c4_alias_unregistered_silent
    (types : Registry) (a b : String) (h : types b = none) :
    ReactiveFile.assignType types a b a = none ∧
    (∀ t, ReactiveFile.parse (ReactiveFile.assignType types a b) t a
        = Except.error Err.unknownFormat) ∧
    (∀ o, ReactiveFile.serialize (ReactiveFile.assignType types a b) o a
        = Except.error Err.unknownFormat) := by
  have ha : ReactiveFile.assignType types a b a = none := by
    simp [ReactiveFile.assignType, h]
  exact ⟨ha, fun t => by simp [ReactiveFile.parse, ha],
    fun o => by simp [ReactiveFile.serialize, ha]⟩

/-- C4 witness for the amended claim, at the concrete registry `jReg` with the
unregistered source format toml. -/
theorem c4_witness :
    jReg "toml" = none ∧
    (ReactiveFile.assignType jReg "conf" "toml" "conf" = none ∧
     (∀ t, ReactiveFile.parse (ReactiveFile.assignType jReg "conf" "toml") t "conf"
        = Except.error Err.unknownFormat) ∧
     (∀ o, ReactiveFile.serialize (ReactiveFile.assignType jReg "conf" "toml") o "conf"
        = Except.error Err.unknownFormat)) :=
  ⟨rfl, c4_alias_unregistered_silent jReg "conf" "toml" rfl⟩

/-- C3: with no codec registered for a format, decoding fails, encoding fails,
a blocking save fails leaving the store untouched, a non-blocking save fails
(as a rejection) scheduling nothing, and loading a file whose inferred format
is that format aborts with the unknown-format failure, returning no document
and writing nothing. -/
theorem c3_unknown_format_fails
    (types : Registry) (t : String) (h : types t = none) :
    (∀ str, ReactiveFile.parse types str t = Except.error Err.unknownFormat) ∧
    (∀ o, ReactiveFile.serialize types o t = Except.error Err.unknownFormat) ∧
    (∀ d fsys, d.type = t →
      ReactiveFile.saveSync types d fsys = (fsys, some Err.unknownFormat)) ∧
    (∀ d sys, d.type = t →
      ReactiveFile.save types d sys = (sys, some Err.unknownFormat)) ∧
    (∀ path opts sys data, resolveType opts.type path = t →
      sys.fsys path = some data →
      ReactiveFile.load types path opts sys = (sys, Except.error Err.unknownFormat)) := by
  refine ⟨fun str => by simp [ReactiveFile.parse, h],
    fun o => by simp [ReactiveFile.serialize, h], ?_, ?_, ?_⟩
  · intro d fsys hd
    simp [ReactiveFile.saveSync, ReactiveFile.serialize, hd, h]
  · intro d sys hd
    simp [ReactiveFile.save, ReactiveFile.serialize, hd, h]
  · intro path opts sys data hres hread
    simp [ReactiveFile.load, hres, hread, ReactiveFile.parse, h]

/-- C3 witness: the registry `jReg` has no entry for the format unknownext;
parse, serialize, both save flavours, and a load of f.unknownext all fail. -/
theorem c3_witness :
    jReg "unknownext" = none ∧
    ((∀ str, ReactiveFile.parse jReg str "unknownext"
        = Except.error Err.unknownFormat) ∧
     (∀ o, ReactiveFile.serialize jReg o "unknownext"
        = Except.error Err.unknownFormat) ∧
     (∀ d fsys, d.type = "unknownext" →
       ReactiveFile.saveSync jReg d fsys = (fsys, some Err.unknownFormat)) ∧
     (∀ d sys, d.type = "unknownext" →
       ReactiveFile.save jReg d sys = (sys, some Err.unknownFormat)) ∧
     (∀ path opts sys data, resolveType opts.type path = "unknownext" →
       sys.fsys path = some data →
       ReactiveFile.load jReg path opts sys
         = (sys, Except.error Err.unknownFormat))) :=
  ⟨rfl, c3_unknown_format_fails jReg "unknownext" rfl⟩

/-- C5: adopting an existing object requires an explicit destination path;
with `saveTo` absent the construction fails with the config failure and no
document is returned, the system state untouched. -/
theorem c5_from_requires_save_path
    (types : Registry) (obj : Val) (opts : LoadOptions) (sys : Sys)
    (h : opts.saveTo = none) :
    ReactiveFile.fromObj types obj opts sys = (sys, Except.error Err.configError) := by
  simp [ReactiveFile.fromObj, h]

/-- C5 witness: adopting with the default options (whose `saveTo` is absent)
fails with the config failure. -/
theorem c5_witness :
    ({} : LoadOptions).saveTo = none ∧
    ReactiveFile.fromObj jReg (Val.vObj []) {} sys0
      = (sys0, Except.error Err.configError) :=
  ⟨rfl, c5_from_requires_save_path jReg (Val.vObj []) {} sys0 rfl⟩

/-- C6 counterexample: the source's inference is `parsePath(path).ext.slice(1)`
with no case conversion, so for a.JSON it yields JSON, while the claim's rule
(text after the last dot, lower-cased — transcribed in `specFormatOfPath`)
yields json. -/
theorem c6_counterexample :
    resolveType none "a.JSON" = "JSON" ∧
    specFormatOfPath "a.JSON" = "json" ∧
    resolveType none "a.JSON" ≠ specFormatOfPath "a.JSON" :=
  ⟨rfl, rfl, by decide⟩

/-- C6 amended: when no explicit format is given and the base name of the path
contains a dot beyond its first character (and is not the special segment ..),
the inferred format is the text after the last dot with its case preserved —
not lower-cased. (Base names with no dot, a leading-dot-only dotfile name, or
.. infer the empty format.) -/
theorem c6_infer_is_text_after_last_dot
    (p : String) (pre suf : List Char)
    (hb : bchars p = pre ++ '.' :: suf)
    (hsuf : '.' ∉ suf)
    (hpre : pre ≠ [])
    (hdd : ¬ (pre = ['.'] ∧ suf = [])) :
    resolveType none p = String.mk suf := by
  have hsufr : ∀ x ∈ suf.reverse, x ≠ '.' := by
    intro x hx he
    exact hsuf (he ▸ List.mem_reverse.mp hx)
  have hrev : (bchars p).reverse = suf.reverse ++ '.' :: pre.reverse := by
    rw [hb]
    simp
  have htw : (bchars p).reverse.takeWhile notDot = suf.reverse := by
    rw [hrev]
    exact takeWhile_notDot_append suf.reverse pre.reverse hsufr
  have hlen : (bchars p).length = pre.length + suf.length + 1 := by
    rw [hb]
    simp [List.length_append]
    omega
  have hprelen : 0 < pre.length := List.length_pos.mpr hpre
  have h1 : ¬ (suf.reverse.length = (bchars p).length) := by
    rw [List.length_reverse, hlen]
    omega
  have h2 : ¬ (suf.reverse.length + 1 = (bchars p).length) := by
    rw [List.length_reverse, hlen]
    omega
  have h3 : ¬ (bchars p = ['.', '.']) := by
    rw [hb]
    intro hcontra
    have hl : pre.length + suf.length + 1 = 2 := by
      have hlc := congrArg List.length hcontra
      simp [List.length_append] at hlc
      omega
    have hsuf0 : suf = [] := List.length_eq_zero.mp (by omega)
    have hpre1 : pre.length = 1 := by omega
    obtain ⟨c, hc⟩ := List.length_eq_one.mp hpre1
    subst hsuf0
    subst hc
    simp at hcontra
    exact hdd ⟨by rw [hcontra], rfl⟩
  have hne : nodeExtChars (bchars p) = '.' :: suf := by
    simp only [nodeExtChars]
    rw [htw, if_neg h1, if_neg h2, if_neg h3, List.reverse_reverse]
  have hrt : resolveType none p = String.mk ((nodeExtChars (bchars p)).drop 1) := rfl
  rw [hrt, hne]
  rfl

/-- C6 witness for the amended claim: the path dir/a.JSON has base name a.JSON,
whose text after the last dot is JSON; the inferred format is JSON verbatim. -/
theorem c6_witness :
    bchars "dir/a.JSON" = ['a'] ++ '.' :: ['J', 'S', 'O', 'N'] ∧
    ('.' ∉ ['J', 'S', 'O', 'N']) ∧
    (['a'] : List Char) ≠ [] ∧
    resolveType none "dir/a.JSON" = String.mk ['J', 'S', 'O', 'N'] :=
  ⟨by decide, by decide, by decide,
    c6_infer_is_text_after_last_dot "dir/a.JSON" ['a'] ['J', 'S', 'O', 'N']
      (by decide) (by decide) (by decide) (by decide)⟩

/-- Helper: however the scheduler orders the pending writes, the queue only
shrinks (to a subset of the scheduled writes) and every path holds either its
prior content or the complete payload of one originally scheduled write. -/
theorem reachable_queue_and_contents (s0 s1 : Sys) (h : ReachableSys s0 s1) :
    (∀ w ∈ s1.queue, w ∈ s0.queue) ∧
    (∀ q, s1.fsys q = s0.fsys q ∨
      ∃ w, w ∈ s0.queue ∧ w.path = q ∧ s1.fsys q = some w.content) := by
  induction h with
  | refl => exact ⟨fun w hw => hw, fun q => Or.inl rfl⟩
  | tail hab hbc ih =>
    obtain ⟨ihq, ihf⟩ := ih
    cases hbc with
    | write f pre post w =>
      simp only [] at ihq ihf
      have hwmem : w ∈ s0.queue := ihq w (by simp)
      refine ⟨?_, ?_⟩
      · intro u hu
        apply ihq
        simp only [List.mem_append, List.mem_cons] at hu ⊢
        tauto
      · intro q
        by_cases hq : q = w.path
        · refine Or.inr ⟨w, hwmem, hq.symm, ?_⟩
          show applyWrite f w q = some w.content
          simp [applyWrite, writeFS, hq]
        · have hfw : applyWrite f w q = f q := by
            simp [applyWrite, writeFS, hq]
          show applyWrite f w q = s0.fsys q ∨
            ∃ u, u ∈ s0.queue ∧ u.path = q ∧ applyWrite f w q = some u.content
          rw [hfw]
          exact ihf q

/-- C1: with the document reactive (spec-modelled observation, see
`mutateKey`), a mutation takes effect on the bound object, the change callback
runs synchronously on the post-mutation state, and once the triggered save
settles the file at the bound path holds the serialization of the mutated
state — which, for a round-tripping codec, decodes back to it. -/
theorem c1_mutation_triggers_save
    (types : Registry) (d : ReactiveFile) (k : String) (v : Val) (sys : Sys)
    (p : ParseFunction) (s : SerializeFunction)
    (hreg : types d.type = some (p, s))
    (hreact : d.reactive = true)
    (hq : ∀ w ∈ sys.queue, w.path ≠ d.path) :
    (mutateKey types d k v sys).doc.val = setKeyVal d.val k v ∧
    (mutateKey types d k v sys).err = none ∧
    (settle (mutateKey types d k v sys).sys).fsys d.path
      = some (s (setKeyVal d.val k v)) ∧
    (p (s (setKeyVal d.val k v)) = setKeyVal d.val k v →
      ∃ c, (settle (mutateKey types d k v sys).sys).fsys d.path = some c ∧
        ReactiveFile.parse types c d.type = Except.ok (setKeyVal d.val k v)) := by
  have hdoc : (mutateKey types d k v sys).doc.val = setKeyVal d.val k v := by
    simp [mutateKey, hreact]
  cases hasync : d.asyncSave with
  | true =>
    have hsys : (mutateKey types d k v sys).sys
        = { sys with queue := sys.queue ++ [⟨d.path, s (setKeyVal d.val k v)⟩] } := by
      simp [mutateKey, notifyRun, ReactiveFile.save, ReactiveFile.serialize,
        hreact, hasync, hreg]
    have herr : (mutateKey types d k v sys).err = none := by
      simp [mutateKey, notifyRun, hreact, hasync]
    have hcontent : (settle (mutateKey types d k v sys).sys).fsys d.path
        = some (s (setKeyVal d.val k v)) := by
      rw [hsys]
      exact foldl_applyWrite_append sys.fsys sys.queue
        ⟨d.path, s (setKeyVal d.val k v)⟩
    refine ⟨hdoc, herr, hcontent, fun hround => ⟨s (setKeyVal d.val k v), hcontent, ?_⟩⟩
    simp [ReactiveFile.parse, hreg, hround]
  | false =>
    have hsys : (mutateKey types d k v sys).sys
        = { sys with fsys := writeFS sys.fsys d.path (s (setKeyVal d.val k v)) } := by
      simp [mutateKey, notifyRun, ReactiveFile.saveSync, ReactiveFile.serialize,
        hreact, hasync, hreg]
    have herr : (mutateKey types d k v sys).err = none := by
      simp [mutateKey, notifyRun, ReactiveFile.saveSync, ReactiveFile.serialize,
        hreact, hasync, hreg]
    have hcontent : (settle (mutateKey types d k v sys).sys).fsys d.path
        = some (s (setKeyVal d.val k v)) := by
      rw [hsys]
      refine (foldl_applyWrite_notMem sys.queue _ d.path hq).trans ?_
      simp [writeFS]
    refine ⟨hdoc, herr, hcontent, fun hround => ⟨s (setKeyVal d.val k v), hcontent, ?_⟩⟩
    simp [ReactiveFile.parse, hreg, hround]

/-- C1 witness: one concrete mutation on the fixture document; after settling,
the bound file holds the serialized post-mutation object. -/
theorem c1_witness :
    jReg doc0.type = some (pJson, sJson) ∧
    doc0.reactive = true ∧
    (∀ w ∈ sys0.queue, w.path ≠ doc0.path) ∧
    (settle (mutateKey jReg doc0 "a" (Val.vInt 1) sys0).sys).fsys doc0.path
      = some (sJson (setKeyVal doc0.val "a" (Val.vInt 1))) :=
  ⟨rfl, rfl, by simp [sys0],
    (c1_mutation_triggers_save jReg doc0 "a" (Val.vInt 1) sys0 pJson sJson rfl rfl
      (by simp [sys0])).2.2.1⟩

/-- C2: in non-blocking mode a mutation only schedules its save — the
triggering call returns with the store untouched and exactly one pending write
appended — and whatever order the scheduler later runs pending writes in, every
path always holds either its prior content or the complete payload of a single
scheduled write: whole-file writes are atomic (`writeFileSync` on the one JS
thread), so contents of two writes to one path never interleave. -/
theorem c2_async_save_scheduled_serialized
    (types : Registry) (d : ReactiveFile) (k : String) (v : Val) (sys : Sys)
    (p : ParseFunction) (s : SerializeFunction)
    (hreg : types d.type = some (p, s))
    (hreact : d.reactive = true)
    (hasync : d.asyncSave = true) :
    (mutateKey types d k v sys).sys.fsys = sys.fsys ∧
    (mutateKey types d k v sys).sys.queue
      = sys.queue ++ [⟨d.path, s (setKeyVal d.val k v)⟩] ∧
    (∀ s1, ReachableSys (mutateKey types d k v sys).sys s1 → ∀ q,
      s1.fsys q = sys.fsys q ∨
      ∃ w, w ∈ (mutateKey types d k v sys).sys.queue ∧ w.path = q ∧
        s1.fsys q = some w.content) := by
  have hsys : (mutateKey types d k v sys).sys
      = { sys with queue := sys.queue ++ [⟨d.path, s (setKeyVal d.val k v)⟩] } := by
    simp [mutateKey, notifyRun, ReactiveFile.save, ReactiveFile.serialize,
      hreact, hasync, hreg]
  refine ⟨by rw [hsys], by rw [hsys], ?_⟩
  intro s1 hr q
  have hrc := (reachable_queue_and_contents _ s1 hr).2 q
  rcases hrc with hsame | ⟨w, hwmem, hwp, hwc⟩
  · left
    rw [hsame, hsys]
  · right
    exact ⟨w, hwmem, hwp, hwc⟩

/-- C2 witness: the concrete mutation of `c1_witness` in non-blocking mode
appends exactly one pending write and leaves the store untouched. -/
theorem c2_witness :
    jReg doc0.type = some (pJson, sJson) ∧
    doc0.reactive = true ∧
    doc0.asyncSave = true ∧
    (mutateKey jReg doc0 "a" (Val.vInt 1) sys0).sys.queue
      = sys0.queue ++ [⟨doc0.path, sJson (setKeyVal doc0.val "a" (Val.vInt 1))⟩] :=
  ⟨rfl, rfl, rfl,
    (c2_async_save_scheduled_serialized jReg doc0 "a" (Val.vInt 1) sys0 pJson sJson
      rfl rfl rfl).2.1⟩

/-- Helper: with `reactive = false`, any sequence of mutations leaves the whole
system state (store and queue) untouched. -/
theorem applyMuts_not_reactive (types : Registry) (muts : List (String × Val)) :
    ∀ (d : ReactiveFile) (sys : Sys), d.reactive = false →
      (applyMuts types (d, sys) muts).2 = sys := by
  induction muts with
  | nil =>
    intro d sys h
    rfl
  | cons kv rest ih =>
    intro d sys h
    obtain ⟨k, v⟩ := kv
    have hm : mutateKey types d k v sys
        = ⟨{ d with val := setKeyVal d.val k v }, sys, none⟩ := by
      simp [mutateKey, h]
    show (applyMuts types
      ((mutateKey types d k v sys).doc, (mutateKey types d k v sys).sys) rest).2 = sys
    rw [hm]
    exact ih _ sys h

/-- C7: with `reactive = false` the observer is never attached (`react()`
returns before `observeData`), so no mutation — however many — ever writes or
schedules a write; re-arming is also a no-op; only the explicit save calls
write (blocking) or schedule (non-blocking) the serialized state. -/
theorem c7_no_save_when_not_reactive
    (types : Registry) (d : ReactiveFile) (sys : Sys)
    (muts : List (String × Val)) (h : d.reactive = false) :
    (applyMuts types (d, sys) muts).2 = sys ∧
    ReactiveFile.react types d sys = (sys, none) ∧
    (∀ p s, types d.type = some (p, s) →
      ReactiveFile.saveSync types d sys.fsys
        = (writeFS sys.fsys d.path (s d.val), none) ∧
      ReactiveFile.save types d sys
        = ({ sys with queue := sys.queue ++ [⟨d.path, s d.val⟩] }, none)) := by
  refine ⟨applyMuts_not_reactive types muts d sys h,
    by simp [ReactiveFile.react, h], ?_⟩
  intro p s hreg
  constructor
  · simp [ReactiveFile.saveSync, ReactiveFile.serialize, hreg]
  · simp [ReactiveFile.save, ReactiveFile.serialize, hreg]

/-- A fixture document built with `reactive = false`. -/
def docNR : ReactiveFile :=
  { doc0 with reactive := false }

/-- C7 witness: two concrete mutations on a non-reactive fixture document leave
the system state untouched. -/
theorem c7_witness :
    docNR.reactive = false ∧
    (applyMuts jReg (docNR, sys0) [("a", Val.vInt 1), ("b", Val.vInt 2)]).2 = sys0 :=
  ⟨rfl,
    (c7_no_save_when_not_reactive jReg docNR sys0
      [("a", Val.vInt 1), ("b", Val.vInt 2)] rfl).1⟩

/-- C8: constructing a bound document with `reactive = true` (here in the
default non-blocking mode) immediately schedules exactly one save of the
just-parsed (or adopted) content to the bound path, before any caller
mutation: the constructor calls `react()`, which ends with an unconditional
`notify()`. This holds for `load`, `loadSync` and `from` alike. -/
theorem c8_construction_fires_one_save
    (types : Registry) (path : String) (opts : LoadOptions) (sys : Sys)
    (p : ParseFunction) (s : SerializeFunction) (data : String) (t : String)
    (hres : resolveType opts.type path = t)
    (hreg : types t = some (p, s))
    (hread : sys.fsys path = some data)
    (hreact : opts.reactive = true)
    (hasync : opts.asyncSave = true)
    (hsaveTo : opts.saveTo = none) :
    ReactiveFile.load types path opts sys
      = ({ sys with queue := sys.queue ++ [⟨path, s (p data)⟩] },
         Except.ok { val := p data, path := path, encoding := opts.encoding,
                     asyncSave := true, deep := opts.deep, reactive := true,
                     type := t }) ∧
    ReactiveFile.loadSync types path opts sys
      = ({ sys with queue := sys.queue ++ [⟨path, s (p data)⟩] },
         Except.ok { val := p data, path := path, encoding := opts.encoding,
                     asyncSave := true, deep := opts.deep, reactive := true,
                     type := t }) ∧
    (∀ (obj : Val) (opts2 : LoadOptions) (st : String) (sys2 : Sys) (t2 : String)
      (p2 : ParseFunction) (s2 : SerializeFunction),
      opts2.saveTo = some st → st ≠ "" → resolveType opts2.type st = t2 →
      types t2 = some (p2, s2) → opts2.reactive = true → opts2.asyncSave = true →
      ReactiveFile.fromObj types obj opts2 sys2
        = ({ sys2 with queue := sys2.queue ++ [⟨st, s2 obj⟩] },
           Except.ok { val := obj, path := st, encoding := opts2.encoding,
                       asyncSave := true, deep := opts2.deep, reactive := true,
                       type := t2 })) := by
  refine ⟨?_, ?_, ?_⟩
  · simp [ReactiveFile.load, hres, hread, ReactiveFile.parse, hreg,
      ReactiveFile.react, notifyRun, ReactiveFile.save, ReactiveFile.serialize,
      hreact, hasync, hsaveTo, jsOrElse]
  · simp [ReactiveFile.loadSync, hres, hread, ReactiveFile.parse, hreg,
      ReactiveFile.react, notifyRun, ReactiveFile.save, ReactiveFile.serialize,
      hreact, hasync, hsaveTo, jsOrElse]
  · intro obj opts2 st sys2 t2 p2 s2 hsaveTo2 hst hres2 hreg2 hreact2 hasync2
    simp [ReactiveFile.fromObj, hsaveTo2, hst, hres2, ReactiveFile.react,
      notifyRun, ReactiveFile.save, ReactiveFile.serialize, hreg2, hreact2,
      hasync2]

/-- C8 witness: loading the fixture file f.json with default options schedules
exactly one pending write of the serialized just-parsed content back to
f.json. -/
theorem c8_witness :
    resolveType ({} : LoadOptions).type "f.json" = "json" ∧
    jReg "json" = some (pJson, sJson) ∧
    sysF.fsys "f.json" = some "data" ∧
    ReactiveFile.load jReg "f.json" {} sysF
      = ({ sysF with queue := sysF.queue ++ [⟨"f.json", sJson (pJson "data")⟩] },
         Except.ok { val := pJson "data", path := "f.json", encoding := "utf8",
                     asyncSave := true, deep := true, reactive := true,
                     type := "json" }) :=
  ⟨rfl, rfl, rfl,
    (c8_construction_fires_one_save jReg "f.json" {} sysF pJson sJson "data" "json"
      rfl rfl rfl rfl rfl rfl).1⟩
